import Mathlib

/-!
Verification of the neighbourhood-statistics engine of
`improver/utilities/neighbourhood_tools.py`.

The engine consists of four functions: `rolling_window`, `pad_and_roll`,
`pad_boxsum` and `boxsum`.  They are embedded at two levels:

* a value level, where a 2-D grid is a total function `ℕ → ℕ → ℤ`
  (a batched 3-D grid is `ℕ → ℕ → ℕ → ℤ`, leading batch index first) and
  the cumulative-sum/difference arithmetic of `boxsum` is carried out in
  exact integer arithmetic on those functions; shape bounds appear as
  hypotheses on the indices; and

* a shape level, where the shape of an array is a `List ℕ` and the
  assertion/broadcasting behaviour of the NumPy operations is modelled
  explicitly, `none` standing for a raised exception.
-/

open Finset

/-- One axis of `numpy.cumsum`: `cumsum f n` is the inclusive prefix sum
`f 0 + f 1 + ... + f n`, accumulated left to right. -/
def cumsum (f : ℕ → ℤ) : ℕ → ℤ
  | 0 => f 0
  | n + 1 => cumsum f n + f (n + 1)

/-- `data.cumsum(-2)`: cumulative sum along the second-to-last axis of a 2-D
grid (source line 192, first factor). -/
def csum_rows (d : ℕ → ℕ → ℤ) : ℕ → ℕ → ℤ :=
  fun r c => cumsum (fun a => d a c) r

/-- `data.cumsum(-1)`: cumulative sum along the last axis of a 2-D grid
(source line 192, second factor). -/
def csum_cols (d : ℕ → ℕ → ℤ) : ℕ → ℕ → ℤ :=
  fun r c => cumsum (fun b => d r b) c

/-- The summed-area table `data.cumsum(-2).cumsum(-1)` built by `boxsum`
(source line 192). -/
def sat_table (d : ℕ → ℕ → ℤ) : ℕ → ℕ → ℤ :=
  csum_cols (csum_rows d)

/-- Value-level semantics of `boxsum` without the optional padding step
(source lines 188-201): when `cum` is `true` the input is accumulated into a
summed-area table, otherwise it is used as is; the output cell `(r, c)` is
the four-corner difference
`D[r+i, c+j] - D[r, c+j] + D[r, c] - D[r+i, c]`, which is the cell of
`data[..., i:i+m, j:j+n] - data[..., :m, j:j+n] + data[..., :m, :n]
- data[..., i:i+m, :n]` at output position `(r, c)`. -/
def boxsum_fn (d : ℕ → ℕ → ℤ) (i j : ℕ) (cum : Bool) : ℕ → ℕ → ℤ :=
  fun r c =>
    let D := if cum then sat_table d else d
    D (r + i) (c + j) - D r (c + j) + D r c - D (r + i) c

/-- Brute-force window summation, written from the words of the spec for the
refinement claim: the sum of the `i`-by-`j` block of input cells belonging to
output position `(r, c)`, namely cells `(r+1+a, c+1+b)` for `a < i`,
`b < j`. -/
def spec_window_sum (d : ℕ → ℕ → ℤ) (i j r c : ℕ) : ℤ :=
  ∑ a ∈ range i, ∑ b ∈ range j, d (r + 1 + a) (c + 1 + b)

/-- Value-level semantics of `numpy.pad` on the last two axes of a 2-D grid
of shape `R × C` with `pt` leading rows and `pl` leading columns of padding:
cells of the padded grid inside the translated interior read the original
grid, every other cell reads the fill value supplied by the pad policy
(constant, edge, reflect, ... are all instances of the `fill` function).
Trailing pad extents only enlarge the region where `fill` is read, so they
need no extra parameter. -/
def np_pad2 (R C pt pl : ℕ) (d fill : ℕ → ℕ → ℤ) : ℕ → ℕ → ℤ :=
  fun r c =>
    if pt ≤ r ∧ r < pt + R ∧ pl ≤ c ∧ c < pl + C then d (r - pt) (c - pl)
    else fill r c

/-- Value-level semantics of `pad_boxsum` (source lines 124-128) on a 2-D
grid of shape `R × C`: padding of `boxsize // 2 + 1` on the leading side of
each of the last two axes (the trailing `boxsize // 2` cells only carry fill
values). -/
def pad_boxsum_fn (R C : ℕ) (d fill : ℕ → ℕ → ℤ) (bi bj : ℕ) : ℕ → ℕ → ℤ :=
  np_pad2 R C (bi / 2 + 1) (bj / 2 + 1) d fill

/-- Value-level semantics of `boxsum` invoked with a pad policy (source
lines 189-190 followed by 191-201): `pad_boxsum` first, then the cumulative
four-corner difference. -/
def boxsum_pad_fn (R C : ℕ) (d fill : ℕ → ℕ → ℤ) (bi bj : ℕ) : ℕ → ℕ → ℤ :=
  boxsum_fn (pad_boxsum_fn R C d fill bi bj) bi bj true

/-- `data.cumsum(-2)` on a 3-D grid (leading batch axis `t`). -/
def csum_rows3 (d : ℕ → ℕ → ℕ → ℤ) : ℕ → ℕ → ℕ → ℤ :=
  fun t r c => cumsum (fun a => d t a c) r

/-- `data.cumsum(-1)` on a 3-D grid. -/
def csum_cols3 (d : ℕ → ℕ → ℕ → ℤ) : ℕ → ℕ → ℕ → ℤ :=
  fun t r c => cumsum (fun b => d t r b) c

/-- Summed-area table of a 3-D grid: `data.cumsum(-2).cumsum(-1)`. -/
def sat_table3 (d : ℕ → ℕ → ℕ → ℤ) : ℕ → ℕ → ℕ → ℤ :=
  csum_cols3 (csum_rows3 d)

/-- Value-level semantics of `boxsum` without padding on a 3-D grid: the
slicing `[..., i:i+m, j:j+n]` leaves the batch axis untouched. -/
def boxsum3_fn (d : ℕ → ℕ → ℕ → ℤ) (i j : ℕ) (cum : Bool) : ℕ → ℕ → ℕ → ℤ :=
  fun t r c =>
    let D := if cum then sat_table3 d else d
    D t (r + i) (c + j) - D t r (c + j) + D t r c - D t (r + i) c

/-- `numpy.pad` on a 3-D grid with zero pad width on the batch axis
(`pad_boxsum` builds `[(0, 0)] * (ndim - 2)` for the leading axes). -/
def np_pad3 (R C pt pl : ℕ) (d fill : ℕ → ℕ → ℕ → ℤ) : ℕ → ℕ → ℕ → ℤ :=
  fun t r c =>
    if pt ≤ r ∧ r < pt + R ∧ pl ≤ c ∧ c < pl + C then d t (r - pt) (c - pl)
    else fill t r c

/-- `pad_boxsum` on a 3-D grid. -/
def pad_boxsum3_fn (R C : ℕ) (d fill : ℕ → ℕ → ℕ → ℤ) (bi bj : ℕ) :
    ℕ → ℕ → ℕ → ℤ :=
  np_pad3 R C (bi / 2 + 1) (bj / 2 + 1) d fill

/-- `boxsum` with a pad policy on a 3-D grid. -/
def boxsum3_pad_fn (R C : ℕ) (d fill : ℕ → ℕ → ℕ → ℤ) (bi bj : ℕ) :
    ℕ → ℕ → ℕ → ℤ :=
  boxsum3_fn (pad_boxsum3_fn R C d fill bi bj) bi bj true

/-- The output shape `adjshp` computed by `rolling_window` (source lines
61-68) before the positivity assertion: the batch axes, then `g - w + 1` per
windowed axis, then the window extents.  Entries live in `ℤ` because
`g - w + 1` may be non-positive. -/
def adjShape (A W : List ℕ) : List ℤ :=
  (A.take (A.length - W.length)).map (fun g : ℕ => (g : ℤ))
    ++ List.zipWith (fun (g w : ℕ) => (g : ℤ) - (w : ℤ) + 1)
        (A.drop (A.length - W.length)) W
    ++ W.map (fun w : ℕ => (w : ℤ))

/-- Shape behaviour of `rolling_window` (source lines 58-73): first the
assertion `num_arr_dims >= num_window_dims`, then the assertion that every
entry of `adjshp` is positive; `none` models a raised `AssertionError`, and
`some` carries the shape of the returned view. -/
def rolling_window_shape (A W : List ℕ) : Option (List ℤ) :=
  if A.length < W.length then none
  else if (adjShape A W).all (fun x => decide (0 < x)) then some (adjShape A W)
  else none

/-- Shape behaviour of `pad_and_roll` (source lines 103-107): pad width
`(d // 2, d // 2)` on each of the trailing `len(shape)` axes and `(0, 0)` on
the batch axes, then `rolling_window` with the original window shape. -/
def pad_and_roll_shape (A W : List ℕ) : Option (List ℤ) :=
  rolling_window_shape
    (A.take (A.length - W.length)
      ++ List.zipWith (fun (g w : ℕ) => g + 2 * (w / 2)) (A.drop (A.length - W.length)) W)
    W

/-- Clamp a normalised Python slice bound into `[0, n]`. -/
def pyClamp (n x : ℤ) : ℤ := max 0 (min n x)

/-- Length of the Python basic slice `a:b` (step 1) of an axis of length
`n`: negative bounds count from the end, then both bounds are clamped into
`[0, n]` and the length is the non-negative difference. -/
def pySliceLen (n a b : ℤ) : ℤ :=
  max 0 (pyClamp n (if b < 0 then n + b else b)
    - pyClamp n (if a < 0 then n + a else a))

/-- NumPy broadcasting of one axis of two operands: the lengths must be
equal or one of them must be `1`; `none` models the `ValueError` raised for
incompatible lengths. -/
def broadcast2 (a b : ℤ) : Option ℤ :=
  if a = b then some a
  else if a = 1 then some b
  else if b = 1 then some a
  else none

/-- Shape behaviour of the sliced difference in `boxsum` (source lines
193-200) on the last two axes of an input of shape `rows × cols`:
`m = rows - i` and `n = cols - j` are computed in `ℤ`, the four operands
`data[..., i:i+m, j:j+n]`, `data[..., :m, j:j+n]`, `data[..., :m, :n]` and
`data[..., i:i+m, :n]` get their axis lengths from the Python slice rule,
and the three binary operations broadcast those lengths pairwise in
evaluation order.  `none` models a raised broadcasting error. -/
def boxsum_shape (rows cols i j : ℕ) : Option (ℤ × ℤ) :=
  let m : ℤ := (rows : ℤ) - (i : ℤ)
  let n : ℤ := (cols : ℤ) - (j : ℤ)
  let L1 : ℤ := pySliceLen (rows : ℤ) (i : ℤ) ((i : ℤ) + m)
  let L2 : ℤ := pySliceLen (rows : ℤ) 0 m
  let K1 : ℤ := pySliceLen (cols : ℤ) (j : ℤ) ((j : ℤ) + n)
  let K2 : ℤ := pySliceLen (cols : ℤ) 0 n
  (broadcast2 L1 L2).bind fun r1 =>
    (broadcast2 K1 K1).bind fun c1 =>
      (broadcast2 r1 L2).bind fun r2 =>
        (broadcast2 c1 K2).bind fun c2 =>
          (broadcast2 r2 L1).bind fun r3 =>
            (broadcast2 c2 K2).bind fun c3 => some (r3, c3)

/-- Shape of the array returned by `pad_boxsum` (source lines 124-128) on
the last two axes: `boxsize // 2 + 1` cells before and `boxsize // 2` cells
after each axis. -/
def pad_boxsum_shape (rows cols bi bj : ℕ) : ℕ × ℕ :=
  (rows + (bi / 2 + 1) + bi / 2, cols + (bj / 2 + 1) + bj / 2)

/-- Reading the `rolling_window` view of a 2-D base array at spatial
position `(r, c)` and window offset `(a, b)`.  The view duplicates the
strides of the base (source line 70), so its flat offset is
`(r + a) * s0 + (c + b) * s1`, the base cell `(r + a, c + b)`. -/
def view_read (base : ℕ → ℕ → ℤ) (r c a b : ℕ) : ℤ :=
  base (r + a) (c + b)

/-- The base array after an element assignment through a writable
`rolling_window` view at spatial position `(r, c)` and window offset
`(a, b)`: by the stride mapping above, exactly the base cell
`(r + a, c + b)` is overwritten. -/
def view_write_fn (base : ℕ → ℕ → ℤ) (r c a b : ℕ) (v : ℤ) : ℕ → ℕ → ℤ :=
  fun x y => if x = r + a ∧ y = c + b then v else base x y

/-- Element assignment through a `rolling_window` view: with
`writeable=True` the base array is mutated in place; with the default
`writeable=False` NumPy refuses the write (`none`), leaving the base array
untouched. -/
def view_write (writeable : Bool) (base : ℕ → ℕ → ℤ) (r c a b : ℕ) (v : ℤ) :
    Option (ℕ → ℕ → ℤ) :=
  if writeable then some (view_write_fn base r c a b v) else none

lemma cumsum_eq_sum (f : ℕ → ℤ) (n : ℕ) :
    cumsum f n = ∑ k ∈ range (n + 1), f k := by
  induction n with
  | zero => simp [cumsum]
  | succ n ih =>
    rw [cumsum, ih]
    exact (Finset.sum_range_succ f (n + 1)).symm

lemma sat_table_eq (d : ℕ → ℕ → ℤ) (r c : ℕ) :
    sat_table d r c = ∑ a ∈ range (r + 1), ∑ b ∈ range (c + 1), d a b := by
  simp only [sat_table, csum_cols, csum_rows, cumsum_eq_sum]
  exact Finset.sum_comm

/-- The summed-area-table difference over one pair of rows of the table
recovers a row-band sum of the input. -/
lemma sat_table_row_band (d : ℕ → ℕ → ℤ) (r i y : ℕ) :
    sat_table d (r + i) y - sat_table d r y
      = ∑ a ∈ range i, ∑ b ∈ range (y + 1), d (r + 1 + a) b := by
  rw [sat_table_eq, sat_table_eq]
  have h1 : r + i + 1 = (r + 1) + i := by omega
  rw [h1, Finset.sum_range_add]
  ring

/-- Central identity: `boxsum` with accumulation equals brute-force window
summation at every output cell. -/
lemma boxsum_fn_true_eq (d : ℕ → ℕ → ℤ) (i j r c : ℕ) :
    boxsum_fn d i j true r c = spec_window_sum d i j r c := by
  have h2 : boxsum_fn d i j true r c
      = (sat_table d (r + i) (c + j) - sat_table d r (c + j))
        - (sat_table d (r + i) c - sat_table d r c) := by
    simp only [boxsum_fn, if_true]
    ring
  rw [h2, sat_table_row_band, sat_table_row_band, ← Finset.sum_sub_distrib]
  unfold spec_window_sum
  refine Finset.sum_congr rfl fun a _ => ?_
  have h3 : c + j + 1 = (c + 1) + j := by omega
  rw [h3, Finset.sum_range_add]
  ring

lemma mem_zipWith_imp {α β γ : Type} (f : α → β → γ) :
    ∀ (l₁ : List α) (l₂ : List β), ∀ x ∈ List.zipWith f l₁ l₂,
      ∃ p ∈ l₁.zip l₂, x = f p.1 p.2 := by
  intro l₁
  induction l₁ with
  | nil => intro l₂ x hx; simp at hx
  | cons a l ih =>
    intro l₂ x hx
    cases l₂ with
    | nil => simp at hx
    | cons b l2 =>
      rw [List.zipWith_cons_cons, List.mem_cons] at hx
      rcases hx with rfl | hx
      · exact ⟨(a, b), by simp, rfl⟩
      · rcases ih l2 x hx with ⟨p, hp, rfl⟩
        exact ⟨p, by simp [hp], rfl⟩

lemma zipWith_zipWith_left {α β γ δ : Type} (f : γ → β → δ) (g : α → β → γ) :
    ∀ (l₁ : List α) (l₂ : List β),
      List.zipWith f (List.zipWith g l₁ l₂) l₂
        = List.zipWith (fun a b => f (g a b) b) l₁ l₂ := by
  intro l₁
  induction l₁ with
  | nil => intro l₂; simp
  | cons a l ih =>
    intro l₂
    cases l₂ with
    | nil => simp
    | cons b l2 => simp [ih]

lemma zipWith_eq_map_of_forall {α β γ : Type} (f : α → β → γ) (g : α → γ) :
    ∀ (l₁ : List α) (l₂ : List β), l₁.length ≤ l₂.length →
      (∀ b ∈ l₂, ∀ a, f a b = g a) → List.zipWith f l₁ l₂ = l₁.map g := by
  intro l₁
  induction l₁ with
  | nil => intro l₂ _ _; simp
  | cons a l ih =>
    intro l₂ hlen hall
    cases l₂ with
    | nil => simp at hlen
    | cons b l2 =>
      rw [List.zipWith_cons_cons, List.map_cons,
        hall b (by simp) a, ih l2 (by simpa using hlen)
          (fun x hx a2 => hall x (by simp [hx]) a2)]

lemma pySliceLen_of_fit (n a b : ℤ) (h0 : 0 ≤ a) (hab : a ≤ b) (hbn : b ≤ n) :
    pySliceLen n a b = b - a := by
  simp only [pySliceLen, pyClamp]
  split_ifs <;> omega

lemma pySliceLen_start_beyond (n a b : ℤ) (hb : 0 ≤ b) (h : n ≤ a)
    (hbn : b ≤ n) :
    pySliceLen n a b = 0 := by
  simp only [pySliceLen, pyClamp]
  split_ifs <;> omega

lemma broadcast2_self (a : ℤ) : broadcast2 a a = some a := by
  simp [broadcast2]

/-- When the box fits (`i ≤ rows`, `j ≤ cols`) all four slices have the
same spatial lengths `rows - i` and `cols - j`, broadcasting is trivial and
the result has shape `(rows - i, cols - j)`. -/
lemma boxsum_shape_of_fit (rows cols i j : ℕ) (hi : i ≤ rows) (hj : j ≤ cols) :
    boxsum_shape rows cols i j = some ((rows : ℤ) - i, (cols : ℤ) - j) := by
  have e1 : (i : ℤ) + ((rows : ℤ) - (i : ℤ)) = (rows : ℤ) := by ring
  have e2 : (j : ℤ) + ((cols : ℤ) - (j : ℤ)) = (cols : ℤ) := by ring
  have hL1 : pySliceLen (rows : ℤ) (i : ℤ) (rows : ℤ) = (rows : ℤ) - i :=
    pySliceLen_of_fit _ _ _ (by omega) (by omega) (by omega)
  have hL2 : pySliceLen (rows : ℤ) 0 ((rows : ℤ) - (i : ℤ)) = (rows : ℤ) - i := by
    rw [pySliceLen_of_fit _ _ _ (by omega) (by omega) (by omega)]
    ring
  have hK1 : pySliceLen (cols : ℤ) (j : ℤ) (cols : ℤ) = (cols : ℤ) - j :=
    pySliceLen_of_fit _ _ _ (by omega) (by omega) (by omega)
  have hK2 : pySliceLen (cols : ℤ) 0 ((cols : ℤ) - (j : ℤ)) = (cols : ℤ) - j := by
    rw [pySliceLen_of_fit _ _ _ (by omega) (by omega) (by omega)]
    ring
  simp only [boxsum_shape, e1, e2, hL1, hL2, hK1, hK2, broadcast2_self,
    Option.some_bind]

/-- Every batch slice of the 3-D `boxsum` is the 2-D `boxsum` of that
slice of the input. -/
lemma boxsum3_fn_slice (d : ℕ → ℕ → ℕ → ℤ) (i j : ℕ) (cum : Bool)
    (t r c : ℕ) :
    boxsum3_fn d i j cum t r c = boxsum_fn (fun x y => d t x y) i j cum r c := by
  cases cum <;> rfl

/-- Every batch slice of the padded 3-D `boxsum` is the padded 2-D `boxsum`
of that slice with the corresponding slice of the fill values. -/
lemma boxsum3_pad_slice (R C : ℕ) (d fill : ℕ → ℕ → ℕ → ℤ) (bi bj : ℕ)
    (t r c : ℕ) :
    boxsum3_pad_fn R C d fill bi bj t r c
      = boxsum_pad_fn R C (fun x y => d t x y) (fun x y => fill t x y) bi bj r c := by
  rfl

/-- Claim C1: for every 2-D (or batched) grid and every box size, `boxsum`
computed via the summed-area-table difference formula equals the brute-force
sum of the `i`-by-`j` window of input cells at every output position,
interior and edge cells alike, in exact arithmetic. -/
theorem claim_C1_boxsum_equals_bruteforce :
    ∀ (d : ℕ → ℕ → ℤ) (i j r c : ℕ),
      boxsum_fn d i j true r c = spec_window_sum d i j r c
      ∧ ∀ (d3 : ℕ → ℕ → ℕ → ℤ) (t : ℕ),
          boxsum3_fn d3 i j true t r c
            = spec_window_sum (fun x y => d3 t x y) i j r c := by
  intro d i j r c
  refine ⟨boxsum_fn_true_eq d i j r c, fun d3 t => ?_⟩
  rw [boxsum3_fn_slice]
  exact boxsum_fn_true_eq _ i j r c

/-- Claim C5: calling `boxsum` with `cumsum=False` on the summed-area table
produced by the accumulation step of `boxsum` itself, with no pad policy,
yields exactly the result of calling `boxsum` on the original grid with
`cumsum=True` and no pad policy. -/
theorem claim_C5_preaccumulated_table :
    ∀ (d : ℕ → ℕ → ℤ) (i j r c : ℕ),
      boxsum_fn (sat_table d) i j false r c = boxsum_fn d i j true r c :=
  fun _ _ _ _ _ => rfl

/-- Claim C6: on a 3-D grid with a leading batch axis, `boxsum` applied to
the whole grid equals stacking `boxsum` applied independently to each 2-D
slice, both without a pad policy (any `cum` flag) and with one (padding a
batch slice uses the corresponding slice of the fill values). -/
theorem claim_C6_batch_independence :
    ∀ (d fill : ℕ → ℕ → ℕ → ℤ) (R C i j : ℕ) (cum : Bool) (t r c : ℕ),
      boxsum3_fn d i j cum t r c = boxsum_fn (fun x y => d t x y) i j cum r c
      ∧ boxsum3_pad_fn R C d fill i j t r c
          = boxsum_pad_fn R C (fun x y => d t x y) (fun x y => fill t x y)
              i j r c :=
  fun d fill R C i j cum t r c =>
    ⟨boxsum3_fn_slice d i j cum t r c,
     boxsum3_pad_slice R C d fill i j t r c⟩

/-- Claim C9: the `rolling_window` view shares storage with its source: the
view element at spatial position `(r, c)` and window offset `(a, b)` is the
source cell `(r + a, c + b)`; a write through a writable view is observable
at every view position whose spatial position and window offset sum to the
same source index, and in the source array itself; with `writeable=False`
the write is refused and the source is never modified. -/
theorem claim_C9_view_aliasing (base : ℕ → ℕ → ℤ)
    (r c a b r2 c2 a2 b2 : ℕ) (v : ℤ)
    (h1 : r + a = r2 + a2) (h2 : c + b = c2 + b2) :
    view_read base r c a b = base (r + a) (c + b)
    ∧ view_write true base r c a b v = some (view_write_fn base r c a b v)
    ∧ view_read (view_write_fn base r c a b v) r2 c2 a2 b2 = v
    ∧ view_write_fn base r c a b v (r + a) (c + b) = v
    ∧ view_write false base r c a b v = none := by
  refine ⟨rfl, rfl, ?_, by simp [view_write_fn], rfl⟩
  simp [view_read, view_write_fn, h1.symm, h2.symm]

/-- Witness for claim C9 at a concrete overlap: positions `(0,0)` with
offset `(1,0)` and `(1,0)` with offset `(0,0)` alias source cell `(1,0)`. -/
theorem claim_C9_view_aliasing_witness :
    view_read (view_write_fn (fun _ _ => 0) 0 0 1 0 7) 1 0 0 0 = 7 :=
  (claim_C9_view_aliasing (fun _ _ => 0) 0 0 1 0 1 0 0 0 7 (by decide)
    (by decide)).2.2.1

/-- Claim C10: `boxsum` with box size 1 and a pad policy is the identity on
the grid regardless of the fill values and preserves the spatial shape,
whereas `boxsum` with box size 1, `cumsum=True` and no pad policy drops the
first row and first column, the shape shrinking to `(rows-1, cols-1)`. -/
theorem claim_C10_boxsize_one (R C : ℕ) (d fill : ℕ → ℕ → ℤ) (r c : ℕ)
    (hr : r < R) (hc : c < C) :
    boxsum_pad_fn R C d fill 1 1 r c = d r c
    ∧ boxsum_shape (pad_boxsum_shape R C 1 1).1 (pad_boxsum_shape R C 1 1).2 1 1
        = some ((R : ℤ), (C : ℤ))
    ∧ boxsum_fn d 1 1 true r c = d (r + 1) (c + 1)
    ∧ boxsum_shape R C 1 1 = some ((R : ℤ) - 1, (C : ℤ) - 1) := by
  refine ⟨?_, ?_, ?_, ?_⟩
  · rw [boxsum_pad_fn, boxsum_fn_true_eq]
    simp only [spec_window_sum, Finset.sum_range_one, Nat.add_zero]
    simp only [pad_boxsum_fn, np_pad2]
    rw [if_pos (by omega)]
    simp
  · have hsh : pad_boxsum_shape R C 1 1 = (R + 1, C + 1) := by
      simp [pad_boxsum_shape]
    rw [hsh]
    rw [boxsum_shape_of_fit (R + 1) (C + 1) 1 1 (by omega) (by omega)]
    simp only [Option.some.injEq, Prod.mk.injEq]
    constructor <;> push_cast <;> ring
  · rw [boxsum_fn_true_eq]
    simp [spec_window_sum]
  · have h1 := boxsum_shape_of_fit R C 1 1 (by omega) (by omega)
    rw [h1]
    norm_num

/-- Witness for claim C10 on a concrete 1-by-1 grid holding 5 with fill 9:
the padded box sum of size 1 returns the grid value. -/
theorem claim_C10_boxsize_one_witness :
    boxsum_pad_fn 1 1 (fun _ _ => 5) (fun _ _ => 9) 1 1 0 0 = 5 :=
  (claim_C10_boxsize_one 1 1 (fun _ _ => 5) (fun _ _ => 9) 0 0 (by decide)
    (by decide)).1

/-- Claim C7: `rolling_window` raises its typed shape error exactly when the
number of window dimensions exceeds the array dimensions or some entry of
the output shape is non-positive (in particular when a window extent exceeds
the corresponding spatial axis), and on success it returns exactly the
computed shape, never a clamped one. -/
theorem claim_C7_shape_error (A W : List ℕ) :
    (rolling_window_shape A W = none ↔
      A.length < W.length ∨ ∃ x ∈ adjShape A W, x ≤ 0)
    ∧ ∀ s, rolling_window_shape A W = some s → s = adjShape A W := by
  constructor
  · by_cases hl : A.length < W.length
    · simp [rolling_window_shape, hl]
    · by_cases hall : ((adjShape A W).all (fun x => decide (0 < x))) = true
      · simp only [rolling_window_shape, if_neg hl, if_pos hall]
        constructor
        · intro h
          exact absurd h (Option.some_ne_none _)
        · intro h
          rcases h with h | ⟨x, hx, hx0⟩
          · exact absurd h hl
          · have := List.all_eq_true.mp hall x hx
            simp only [decide_eq_true_eq] at this
            omega
      · simp only [rolling_window_shape, if_neg hl, if_neg hall]
        constructor
        · intro _
          right
          have h2 : ¬ ∀ x ∈ adjShape A W, (0 : ℤ) < x := by
            intro hc
            exact hall (List.all_eq_true.mpr fun x hx => by simpa using hc x hx)
          push_neg at h2
          rcases h2 with ⟨x, hx, hx0⟩
          exact ⟨x, hx, by omega⟩
        · intro _
          trivial
  · intro s hs
    simp only [rolling_window_shape] at hs
    split_ifs at hs
    exact (Option.some.inj hs).symm

/-- Witness for claim C7: on a 1-D array of length 2 with window extent 1
the call succeeds and the returned shape is exactly the computed one. -/
theorem claim_C7_shape_error_witness : ([2, 1] : List ℤ) = adjShape [2] [1] :=
  (claim_C7_shape_error [2] [1]).2 [2, 1] (by decide)

/-- Claim C2 counterexample: the array shape `[0, 2]` with window shape
`[2]` satisfies the hypotheses of the claim (2 axes against 1 window
dimension, trailing axis `2 ≥ 2`), yet `rolling_window` raises its
assertion error (the zero batch axis makes an output axis non-positive)
instead of returning a view of shape `[0, 1, 2]`. -/
theorem claim_C2_counterexample :
    rolling_window_shape [0, 2] [2] ≠ some [0, 1, 2] := by decide

/-- Claim C2 (amended): if additionally every axis of the array and every
window extent is positive, `rolling_window` returns a view of shape
`G.shape[:-k] ++ [g - w + 1 elementwise] ++ W`. -/
theorem claim_C2_rolling_window_shape (A W : List ℕ)
    (hlen : W.length ≤ A.length)
    (hA : ∀ g ∈ A, 0 < g) (hW : ∀ w ∈ W, 0 < w)
    (hfit : ∀ p ∈ (A.drop (A.length - W.length)).zip W, p.2 ≤ p.1) :
    rolling_window_shape A W = some (adjShape A W) := by
  have hnot : ¬ A.length < W.length := not_lt.mpr hlen
  have hall : ∀ x ∈ adjShape A W, (0 : ℤ) < x := by
    intro x hx
    simp only [adjShape, List.mem_append] at hx
    rcases hx with (hx | hx) | hx
    · rcases List.mem_map.mp hx with ⟨g, hg, rfl⟩
      have := hA g (List.take_subset _ _ hg)
      omega
    · rcases mem_zipWith_imp _ _ _ x hx with ⟨p, hp, rfl⟩
      have := hfit p hp
      omega
    · rcases List.mem_map.mp hx with ⟨w, hw, rfl⟩
      have := hW w hw
      omega
  simp only [rolling_window_shape, if_neg hnot]
  rw [if_pos (List.all_eq_true.mpr fun x hx => by simpa using hall x hx)]

/-- Witness for the amended claim C2: a batched grid of shape `[2, 3, 3]`
with window shape `[2, 2]` gives a view of shape `[2, 2, 2, 2, 2]`. -/
theorem claim_C2_rolling_window_shape_witness :
    rolling_window_shape [2, 3, 3] [2, 2] = some [2, 2, 2, 2, 2] := by
  have h := claim_C2_rolling_window_shape [2, 3, 3] [2, 2] (by decide)
    (by decide) (by decide) (by decide)
  rw [h]
  decide

/-- Claim C4 counterexample: a 1-D grid of length 1 with the even window
extent 2 is padded to length `1 + 2*(2//2) = 3`, and the windowed output has
spatial length `3 - 2 + 1 = 2`, not the original 1: `pad_and_roll` does not
preserve the spatial shape for even extents. -/
theorem claim_C4_counterexample :
    pad_and_roll_shape [1] [2] ≠ some [1, 2] := by decide

/-- Claim C4 (amended): for window shapes of positive odd extents on grids
with positive axes, `pad_and_roll` returns an output whose leading axes are
the batch axes and whose spatial axes match the original, unpadded grid,
followed by the window extents. -/
theorem claim_C4_pad_and_roll_shape (A W : List ℕ)
    (hlen : W.length ≤ A.length)
    (hA : ∀ g ∈ A, 0 < g) (hW : ∀ w ∈ W, w % 2 = 1) :
    pad_and_roll_shape A W
      = some (A.map (fun g : ℕ => (g : ℤ)) ++ W.map (fun w : ℕ => (w : ℤ))) := by
  simp only [pad_and_roll_shape]
  set X := A.take (A.length - W.length) with hX
  set T := A.drop (A.length - W.length) with hT
  set Y := List.zipWith (fun (g w : ℕ) => g + 2 * (w / 2)) T W with hY
  have hXlen : X.length = A.length - W.length := by
    rw [hX, List.length_take]
    omega
  have hTlen : T.length = W.length := by
    rw [hT, List.length_drop]
    omega
  have hYlen : Y.length = W.length := by
    rw [hY, List.length_zipWith]
    omega
  have hPlen : (X ++ Y).length = A.length := by
    rw [List.length_append]
    omega
  have htake : (X ++ Y).take ((X ++ Y).length - W.length) = X := by
    have h : (X ++ Y).length - W.length = X.length := by omega
    rw [h, List.take_left]
  have hdrop : (X ++ Y).drop ((X ++ Y).length - W.length) = Y := by
    have h : (X ++ Y).length - W.length = X.length := by omega
    rw [h, List.drop_left]
  have hzip : List.zipWith (fun (g w : ℕ) => (g : ℤ) - (w : ℤ) + 1) Y W
      = T.map (fun t : ℕ => (t : ℤ)) := by
    rw [hY, zipWith_zipWith_left]
    apply zipWith_eq_map_of_forall _ _ T W (by omega)
    intro b hb a
    have hodd := hW b hb
    omega
  have hXT : X ++ T = A := by
    rw [hX, hT]
    exact List.take_append_drop _ A
  have hadj : adjShape (X ++ Y) W
      = A.map (fun g : ℕ => (g : ℤ)) ++ W.map (fun w : ℕ => (w : ℤ)) := by
    simp only [adjShape, htake, hdrop, hzip]
    rw [← List.map_append, hXT]
  have hall : ∀ x ∈ adjShape (X ++ Y) W, (0 : ℤ) < x := by
    rw [hadj]
    intro x hx
    rcases List.mem_append.mp hx with hx | hx
    · obtain ⟨g, hg, hgx⟩ := List.mem_map.mp hx
      have := hA g hg
      omega
    · obtain ⟨w, hw, hwx⟩ := List.mem_map.mp hx
      have := hW w hw
      omega
  simp only [rolling_window_shape]
  rw [if_neg (by omega), if_pos (List.all_eq_true.mpr fun x hx => by
    simpa using hall x hx), hadj]

/-- Witness for the amended claim C4: grid shape `[2, 3]` with window shape
`[3]` keeps batch axis 2 and spatial axis 3, output shape `[2, 3, 3]`. -/
theorem claim_C4_pad_and_roll_shape_witness :
    pad_and_roll_shape [2, 3] [3] = some [2, 3, 3] := by
  have h := claim_C4_pad_and_roll_shape [2, 3] [3] (by decide) (by decide)
    (by decide)
  rw [h]
  decide

/-- Claim C3 counterexample: a 1-by-1 grid with the even box size 2 is
padded by `pad_boxsum` to 4-by-4 (`2//2 + 1 = 2` before, `2//2 = 1` after
each axis), and `boxsum` then returns a 2-by-2 result, not the original
1-by-1 shape. -/
theorem claim_C3_counterexample :
    boxsum_shape (pad_boxsum_shape 1 1 2 2).1 (pad_boxsum_shape 1 1 2 2).2 2 2
      ≠ some ((1 : ℤ), (1 : ℤ)) := by decide

/-- Claim C3 (amended): for odd box sizes, `boxsum` invoked with a pad
policy returns a result whose last two axes have exactly the lengths of the
last two axes of the original, unpadded input, for any fill values. -/
theorem claim_C3_padded_shape (R C bi bj : ℕ)
    (hbi : bi % 2 = 1) (hbj : bj % 2 = 1) :
    boxsum_shape (pad_boxsum_shape R C bi bj).1 (pad_boxsum_shape R C bi bj).2
      bi bj = some ((R : ℤ), (C : ℤ)) := by
  have h1 : (pad_boxsum_shape R C bi bj).1 = R + bi := by
    show R + (bi / 2 + 1) + bi / 2 = R + bi
    omega
  have h2 : (pad_boxsum_shape R C bi bj).2 = C + bj := by
    show C + (bj / 2 + 1) + bj / 2 = C + bj
    omega
  rw [h1, h2, boxsum_shape_of_fit _ _ _ _ (by omega) (by omega)]
  simp only [Option.some.injEq, Prod.mk.injEq]
  constructor <;> push_cast <;> ring

/-- Witness for the amended claim C3: a 1-by-2 grid with box size 3 is
padded to 4-by-5 and the box sum result has shape 1-by-2 again. -/
theorem claim_C3_padded_shape_witness :
    boxsum_shape (pad_boxsum_shape 1 2 3 3).1 (pad_boxsum_shape 1 2 3 3).2 3 3
      = some ((1 : ℤ), (2 : ℤ)) := by
  have h := claim_C3_padded_shape 1 2 3 3 (by decide) (by decide)
  simpa using h

/-- Claim C8 counterexample: on a 3-by-3 grid with box row extent 4
(`m = -1`), the slices `data[4:3, :]` and `data[:-1, :]` have row lengths 0
and 2, which do not broadcast, so `boxsum` raises a broadcasting error
rather than completing with an empty result. -/
theorem claim_C8_counterexample : boxsum_shape 3 3 4 3 = none := by decide

/-- Claim C8 (amended): with box row extent `i` exceeding the row count and
a fitting column extent, the four slices have row lengths `0` and
`max 0 (2*rows - i)`; the computation completes with a result that is empty
along the row axis exactly when `2*rows <= i + 1`, and otherwise raises a
broadcasting error. -/
theorem claim_C8_oversized_box (rows cols i j : ℕ)
    (hrow : rows < i) (hcol : j ≤ cols) :
    (2 * rows ≤ i + 1 →
      boxsum_shape rows cols i j = some (0, (cols : ℤ) - j))
    ∧ (i + 1 < 2 * rows → boxsum_shape rows cols i j = none) := by
  have e1 : (i : ℤ) + ((rows : ℤ) - (i : ℤ)) = (rows : ℤ) := by ring
  have e2 : (j : ℤ) + ((cols : ℤ) - (j : ℤ)) = (cols : ℤ) := by ring
  have hL1 : pySliceLen (rows : ℤ) (i : ℤ) (rows : ℤ) = 0 :=
    pySliceLen_start_beyond _ _ _ (by omega) (by omega) (by omega)
  have hK1 : pySliceLen (cols : ℤ) (j : ℤ) (cols : ℤ) = (cols : ℤ) - j :=
    pySliceLen_of_fit _ _ _ (by omega) (by omega) (by omega)
  have hK2 : pySliceLen (cols : ℤ) 0 ((cols : ℤ) - (j : ℤ)) = (cols : ℤ) - j := by
    rw [pySliceLen_of_fit _ _ _ (by omega) (by omega) (by omega)]
    ring
  constructor
  · intro h
    rcases (by omega : 2 * (rows : ℤ) - i ≤ 0 ∨ 2 * (rows : ℤ) - i = 1) with
      hc | hc
    · have hL2 : pySliceLen (rows : ℤ) 0 ((rows : ℤ) - (i : ℤ)) = 0 := by
        simp only [pySliceLen, pyClamp]
        split_ifs <;> omega
      simp only [boxsum_shape, e1, e2, hL1, hL2, hK1, hK2, broadcast2_self,
        Option.some_bind]
    · have hL2 : pySliceLen (rows : ℤ) 0 ((rows : ℤ) - (i : ℤ)) = 1 := by
        simp only [pySliceLen, pyClamp]
        split_ifs <;> omega
      have hb01 : broadcast2 0 1 = some 0 := by decide
      simp only [boxsum_shape, e1, e2, hL1, hL2, hK1, hK2, broadcast2_self,
        hb01, Option.some_bind]
  · intro h
    have hL2 : pySliceLen (rows : ℤ) 0 ((rows : ℤ) - (i : ℤ))
        = 2 * (rows : ℤ) - i := by
      simp only [pySliceLen, pyClamp]
      split_ifs <;> omega
    have hnone : broadcast2 0 (2 * (rows : ℤ) - i) = none := by
      simp only [broadcast2]
      rw [if_neg (by omega), if_neg (by omega), if_neg (by omega)]
    simp only [boxsum_shape, e1, e2, hL1, hL2, hK1, hK2, hnone,
      Option.none_bind]

/-- Witness for the amended claim C8: on a 1-by-3 grid a box of row extent
2 completes with an empty row axis, while on a 4-by-3 grid a box of row
extent 5 raises a broadcasting error. -/
theorem claim_C8_oversized_box_witness :
    boxsum_shape 1 3 2 3 = some (0, 0) ∧ boxsum_shape 4 3 5 3 = none := by
  constructor
  · have h := (claim_C8_oversized_box 1 3 2 3 (by decide) (by decide)).1
      (by decide)
    simpa using h
  · exact (claim_C8_oversized_box 4 3 5 3 (by decide) (by decide)).2
      (by decide)
